import Mathlib

/-! libuvc: byte-order helpers, list selection and the example program

A shallow embedding of

* `src/include/libuvc/libuvc_internal.h`: `DW_TO_INT`, `SW_TO_SHORT`, `SHORT_TO_SW`,
  `INT_TO_DW`, `DL_NTH` and the payload header flags `UVC_STREAM_*`;
* `src/src/example.c`: the part of `main` that picks a frame descriptor and derives the
  width, height and fps handed to `uvc_get_stream_ctrl_format_size`.

C integers are modelled by `Int` and `Nat`.  A value of C type `int` is an `Int` in
`[-2^31, 2^31)`; every operation that can leave that range is followed by `int32`.
A byte buffer is a function from offsets to byte values, a pointer is an `Option Nat`
(`none` is `NULL`), and a struct field is read through the heap, a function from addresses.
-/

namespace Libuvc

/-! ## C integer arithmetic -/

/-- Wrap an integer into the range of a 32-bit twos-complement `int`. -/
def int32 (x : Int) : Int := (x + 2 ^ 31) % 2 ^ 32 - 2 ^ 31

/-- Wrap an integer into the range of a 16-bit twos-complement `int16_t`. -/
def int16 (x : Int) : Int := (x + 2 ^ 15) % 2 ^ 16 - 2 ^ 15

/-- The bit pattern of an `int`, read as an unsigned 32-bit number. -/
def bits32 (x : Int) : Nat := (x % 2 ^ 32).toNat

/-- The C operator `|` on two `int` operands: bitwise or of the two bit patterns. -/
def int_or (a b : Int) : Int := int32 ((bits32 a ||| bits32 b : Nat) : Int)

/-- The C operator `<<` with an `int` left operand.  A result outside the range of `int`
is kept to its low 32 bits, as compilers for twos-complement targets compute it. -/
def int_shl (a : Int) (k : Nat) : Int := int32 (a * 2 ^ k)

/-- The C operator `>>` with an `int` left operand: arithmetic shift. -/
def int_shr (a : Int) (k : Nat) : Int := a >>> k

/-- Conversion of an `int` to `uint8_t`, as done by a store into a byte buffer. -/
def to_u8 (x : Int) : Nat := (x % 256).toNat

/-! ## libuvc_internal.h, lines 16 to 29: byte-order helpers

`p` is an unsigned byte buffer; `p k` is the byte at offset `k`, promoted to `int` when it
is used as an operand. -/

/-- Source: `#define DW_TO_INT(p) ((p)[0] | ((p)[1] << 8) | ((p)[2] << 16) | ((p)[3] << 24))` -/
def DW_TO_INT (p : Nat → Nat) : Int :=
  int_or (int_or (int_or (p 0 : Int) (int_shl (p 1 : Int) 8)) (int_shl (p 2 : Int) 16))
    (int_shl (p 3 : Int) 24)

/-- Source: `#define SW_TO_SHORT(p) ((p)[0] | ((p)[1] << 8))` -/
def SW_TO_SHORT (p : Nat → Nat) : Int :=
  int_or (p 0 : Int) (int_shl (p 1 : Int) 8)

/-- Source: `#define SHORT_TO_SW(s, p) (p)[0] = (s); (p)[1] = (s) >> 8;`
The result is the buffer after the two stores. -/
def SHORT_TO_SW (s : Int) (p : Nat → Nat) : Nat → Nat :=
  let p := Function.update p 0 (to_u8 s)
  let p := Function.update p 1 (to_u8 (int_shr s 8))
  p

/-- Source: `#define INT_TO_DW(i, p) (p)[0] = (i); (p)[1] = (i) >> 8; (p)[2] = (i) >> 16;
(p)[3] = (i) >> 24;`  The result is the buffer after the four stores. -/
def INT_TO_DW (i : Int) (p : Nat → Nat) : Nat → Nat :=
  let p := Function.update p 0 (to_u8 i)
  let p := Function.update p 1 (to_u8 (int_shr i 8))
  let p := Function.update p 2 (to_u8 (int_shr i 16))
  let p := Function.update p 3 (to_u8 (int_shr i 24))
  p

/-! ## libuvc_internal.h, lines 31 to 48: `DL_NTH`

`prev` and `next` read the two link fields of the node at an address.  The counter
`dl_nth_i` starts at 0 and moves towards `n` one step at a time, so it stays between 0 and
`n` and never leaves the range of `int`. -/

/-- The loop `while (dl_nth_p && dl_nth_i < (n)) { dl_nth_p = dl_nth_p->next; dl_nth_i++; }`,
returning the final `dl_nth_p`. -/
def DL_NTH_next (next : Nat → Option Nat) (n : Int) : Option Nat → Int → Option Nat
  | none, _ => none
  | some a, i => if i < n then DL_NTH_next next n (next a) (i + 1) else some a
termination_by _ i => (n - i).toNat
decreasing_by omega

/-- The loop `while (dl_nth_p && dl_nth_i > (n)) { dl_nth_p = dl_nth_p->prev; dl_nth_i--; }`,
returning the final `dl_nth_p`. -/
def DL_NTH_prev (prev : Nat → Option Nat) (n : Int) : Option Nat → Int → Option Nat
  | none, _ => none
  | some a, i => if i > n then DL_NTH_prev prev n (prev a) (i - 1) else some a
termination_by _ i => (i - n).toNat
decreasing_by omega

/-- Source: `DL_NTH(head, out, n)`; the value stored into `out`. -/
def DL_NTH (prev next : Nat → Option Nat) (head : Option Nat) (n : Int) : Option Nat :=
  if n < 0 then DL_NTH_prev prev n head 0 else DL_NTH_next next n head 0

/-- The utlist doubly linked form of the list with nodes `es` (addresses, in order):
`head` is the first node or `NULL`, the `next` fields chain the nodes and end in `NULL`,
the `prev` field of a later node is the node before it, and the `prev` field of the head
is the tail. -/
def DLForm (prev next : Nat → Option Nat) (head : Option Nat) (es : List Nat) : Prop :=
  head = es.head? ∧
  (∀ k (h : k < es.length), next es[k] = es[k + 1]?) ∧
  (∀ k (h : k < es.length), prev es[k] = if k = 0 then es.getLast? else es[k - 1]?)

instance (prev next : Nat → Option Nat) (head : Option Nat) (es : List Nat) :
    Decidable (DLForm prev next head es) := by
  unfold DLForm; infer_instance

/-! ## libuvc_internal.h, lines 171 to 179: payload header flags -/

def UVC_STREAM_EOH : Nat := 1 <<< 7
def UVC_STREAM_ERR : Nat := 1 <<< 6
def UVC_STREAM_STI : Nat := 1 <<< 5
def UVC_STREAM_RES : Nat := 1 <<< 4
def UVC_STREAM_SCR : Nat := 1 <<< 3
def UVC_STREAM_PTS : Nat := 1 <<< 2
def UVC_STREAM_EOF : Nat := 1 <<< 1
def UVC_STREAM_FID : Nat := 1 <<< 0

/-- The eight flags, least significant first. -/
def uvc_stream_flags : List Nat :=
  [UVC_STREAM_FID, UVC_STREAM_EOF, UVC_STREAM_PTS, UVC_STREAM_SCR,
   UVC_STREAM_RES, UVC_STREAM_STI, UVC_STREAM_ERR, UVC_STREAM_EOH]

/-- Bitwise or of a list of flags. -/
def or_all (l : List Nat) : Nat := l.foldl (fun acc f => acc ||| f) 0

/-- The flags set in the byte `b`, found by testing `b & flag` for each flag. -/
def flags_of (b : Nat) : List Nat := uvc_stream_flags.filter (fun f => b &&& f != 0)

/-! ## libuvc_internal.h, lines 74 to 90 and 199 to 254: descriptors -/

def UVC_VS_FORMAT_MJPEG : Nat := 0x06
def UVC_VS_FORMAT_FRAME_BASED : Nat := 0x10

/-- The fields of `struct uvc_frame_desc` that `main` reads, and the two list links. -/
structure uvc_frame_desc where
  prev : Option Nat
  next : Option Nat
  wWidth : Nat
  wHeight : Nat
  dwDefaultFrameInterval : Nat
deriving DecidableEq

/-- The fields of `struct uvc_format_desc` that `main` reads. -/
structure uvc_format_desc where
  bDescriptorSubtype : Nat
  frame_descs : Option Nat
deriving DecidableEq

/-! ## example.c, lines 70 to 171: `main` up to the negotiation call -/

/-- The three values of `enum uvc_frame_format` that `main` uses. -/
inductive uvc_frame_format where
  | UVC_COLOR_FORMAT_MJPEG
  | UVC_FRAME_FORMAT_H264
  | UVC_FRAME_FORMAT_GRAY16
deriving DecidableEq

/-- The arguments `frame_format, width, height, fps` of the call
`uvc_get_stream_ctrl_format_size(devh, &ctrl, frame_format, width, height, fps)`. -/
structure stream_profile where
  frame_format : uvc_frame_format
  width : Int
  height : Int
  fps : Int
deriving DecidableEq

/-- Ways in which the modelled part of `main` can fail to reach the call. -/
inductive fault where
  | null_dereference
  | division_by_zero
deriving DecidableEq

/-- Line 72: `int format_idx = -1;`, the value left by a command line without options. -/
def default_format_idx : Int := -1

/-- Lines 134 to 138:
`while(format_idx > 0) { frame_desc = format_desc->frame_descs->next; format_idx--; }`
where `h` is the (non-null) value of `format_desc->frame_descs`. -/
def main_frame_desc_loop (mem : Nat → uvc_frame_desc) (h : Nat) :
    Option Nat → Int → Option Nat
  | frame_desc, format_idx =>
    if format_idx > 0 then main_frame_desc_loop mem h (mem h).next (format_idx - 1)
    else frame_desc
termination_by _ format_idx => format_idx.toNat
decreasing_by omega

/-- Lines 131 to 139: the value of `frame_desc` after the selection.
`format_desc` is the result of `uvc_get_format_descs(devh)`. -/
def main_frame_desc (mem : Nat → uvc_frame_desc) (format_desc : uvc_format_desc)
    (format_idx : Int) : Except fault (Option Nat) :=
  match format_desc.frame_descs with
  | none => .error .null_dereference
  | some h =>
    let frame_desc := (mem h).next
    if format_idx > -1 then .ok (main_frame_desc_loop mem h frame_desc format_idx)
    else .ok frame_desc

/-- Lines 146 to 156: the `switch` on `format_desc->bDescriptorSubtype`. -/
def main_frame_format (format_desc : uvc_format_desc) : uvc_frame_format :=
  if format_desc.bDescriptorSubtype = UVC_VS_FORMAT_MJPEG then .UVC_COLOR_FORMAT_MJPEG
  else if format_desc.bDescriptorSubtype = UVC_VS_FORMAT_FRAME_BASED then .UVC_FRAME_FORMAT_H264
  else .UVC_FRAME_FORMAT_GRAY16

/-- Lines 141 to 162: `width`, `height` and `fps` start at 640, 480 and 30 and are
overwritten from `frame_desc` when it is not `NULL`.  In
`10000000 / frame_desc->dwDefaultFrameInterval` the divisor is a `uint32_t`, so the division
is unsigned; the quotient is then converted to `int`. -/
def main_profile (mem : Nat → uvc_frame_desc) (format_desc : uvc_format_desc)
    (frame_desc : Option Nat) : Except fault stream_profile :=
  let frame_format := main_frame_format format_desc
  match frame_desc with
  | none => .ok ⟨frame_format, 640, 480, 30⟩
  | some a =>
    if (mem a).dwDefaultFrameInterval = 0 then .error .division_by_zero
    else .ok ⟨frame_format, ((mem a).wWidth : Int), ((mem a).wHeight : Int),
      int32 ((10000000 / (mem a).dwDefaultFrameInterval : Nat) : Int)⟩

/-- Lines 129 to 171: the arguments that `main` passes to
`uvc_get_stream_ctrl_format_size`. -/
def main_negotiate (mem : Nat → uvc_frame_desc) (format_desc : uvc_format_desc)
    (format_idx : Int) : Except fault stream_profile :=
  match main_frame_desc mem format_desc format_idx with
  | .error e => .error e
  | .ok frame_desc => main_profile mem format_desc frame_desc

/-! ## Concrete data -/

/-- The buffer holding the bytes `78 56 34 92`. -/
def demo_dword : Nat → Nat
  | 0 => 0x78
  | 1 => 0x56
  | 2 => 0x34
  | 3 => 0x92
  | _ => 0

/-- A buffer of zero bytes. -/
def zero_buf : Nat → Nat := fun _ => 0

/-- The `next` fields of a three-node list at the addresses 10, 20, 30. -/
def demo_next : Nat → Option Nat
  | 10 => some 20
  | 20 => some 30
  | _ => none

/-- The `prev` fields of a three-node list at the addresses 10, 20, 30. -/
def demo_prev : Nat → Option Nat
  | 10 => some 30
  | 20 => some 10
  | 30 => some 20
  | _ => none

/-- A heap with one frame descriptor, at address 1: 1280x720, interval 666666. -/
def one_frame_mem : Nat → uvc_frame_desc
  | _ => ⟨some 1, none, 1280, 720, 666666⟩

/-- A heap with two frame descriptors: 1280x720 with interval 666666 at address 1, then
320x240 with interval 333333 at address 2. -/
def two_frame_mem : Nat → uvc_frame_desc
  | 1 => ⟨some 2, some 2, 1280, 720, 666666⟩
  | _ => ⟨some 1, none, 320, 240, 333333⟩

/-- An MJPEG format whose frame list starts at address 1. -/
def demo_format : uvc_format_desc := ⟨UVC_VS_FORMAT_MJPEG, some 1⟩

/-! ## Facts about the integer model -/

theorem bits32_int32 (x : Int) : bits32 (int32 x) = bits32 x := by
  unfold bits32 int32
  norm_num
  omega

theorem bits32_natCast (n : Nat) (h : n < 2 ^ 32) : bits32 (n : Int) = n := by
  unfold bits32
  norm_num at h ⊢
  omega

theorem bits32_lt (a : Int) : bits32 a < 2 ^ 32 := by
  unfold bits32
  norm_num
  omega

theorem bits32_int_or (a b : Int) : bits32 (int_or a b) = bits32 a ||| bits32 b := by
  unfold int_or
  rw [bits32_int32]
  exact bits32_natCast _ (Nat.or_lt_two_pow (bits32_lt a) (bits32_lt b))

theorem bits32_shl_byte (b k : Nat) (hb : b < 256) (hk : k ≤ 24) :
    bits32 (int_shl (b : Int) k) = 2 ^ k * b := by
  unfold int_shl
  rw [bits32_int32]
  have h : 2 ^ k * b < 2 ^ 32 := by
    calc 2 ^ k * b < 2 ^ k * 256 := Nat.mul_lt_mul_of_pos_left hb (Nat.two_pow_pos k)
      _ ≤ 2 ^ 24 * 256 := Nat.mul_le_mul_right _ (Nat.pow_le_pow_right (by decide) hk)
      _ = 2 ^ 32 := by norm_num
  have e : ((b : Int) * 2 ^ k) = ((2 ^ k * b : Nat) : Int) := by push_cast; ring
  rw [e]
  exact bits32_natCast _ h

/-- Bytes placed at disjoint bit positions: or-ing them is adding them. -/
theorem lor_bytes (b0 b1 b2 b3 : Nat) (h0 : b0 < 256) (h1 : b1 < 256) (h2 : b2 < 256) :
    ((b0 ||| 2 ^ 8 * b1) ||| 2 ^ 16 * b2) ||| 2 ^ 24 * b3
      = b0 + 2 ^ 8 * b1 + 2 ^ 16 * b2 + 2 ^ 24 * b3 := by
  have e1 : b0 ||| 2 ^ 8 * b1 = 2 ^ 8 * b1 + b0 := by
    rw [Nat.lor_comm]; exact (Nat.mul_add_lt_is_or (by norm_num; omega) b1).symm
  have e2 : (2 ^ 8 * b1 + b0) ||| 2 ^ 16 * b2 = 2 ^ 16 * b2 + (2 ^ 8 * b1 + b0) := by
    rw [Nat.lor_comm]; exact (Nat.mul_add_lt_is_or (by norm_num; omega) b2).symm
  have e3 : (2 ^ 16 * b2 + (2 ^ 8 * b1 + b0)) ||| 2 ^ 24 * b3
      = 2 ^ 24 * b3 + (2 ^ 16 * b2 + (2 ^ 8 * b1 + b0)) := by
    rw [Nat.lor_comm]; exact (Nat.mul_add_lt_is_or (by norm_num; omega) b3).symm
  rw [e1, e2, e3]; omega

/-- The value of `DW_TO_INT` on a buffer of four bytes. -/
theorem DW_TO_INT_bytes (p : Nat → Nat) (h : ∀ k, k < 4 → p k < 256) :
    DW_TO_INT p
      = int32 ((p 0 : Int) + 2 ^ 8 * (p 1 : Int) + 2 ^ 16 * (p 2 : Int) + 2 ^ 24 * (p 3 : Int)) := by
  have h0 := h 0 (by decide)
  have h1 := h 1 (by decide)
  have h2 := h 2 (by decide)
  have h3 := h 3 (by decide)
  unfold DW_TO_INT
  rw [int_or, bits32_int_or, bits32_int_or, bits32_natCast (p 0) (by omega),
    bits32_shl_byte _ 8 h1 (by decide), bits32_shl_byte _ 16 h2 (by decide),
    bits32_shl_byte _ 24 h3 (by decide), lor_bytes _ _ _ _ h0 h1 h2]
  push_cast
  rfl

/-- The value of `SW_TO_SHORT` on a buffer of two bytes: an `int` between 0 and 65535. -/
theorem SW_TO_SHORT_bytes (p : Nat → Nat) (h0 : p 0 < 256) (h1 : p 1 < 256) :
    SW_TO_SHORT p = (p 0 : Int) + 2 ^ 8 * (p 1 : Int) := by
  unfold SW_TO_SHORT
  have e : p 0 ||| 2 ^ 8 * p 1 = 2 ^ 8 * p 1 + p 0 := by
    rw [Nat.lor_comm]; exact (Nat.mul_add_lt_is_or (by norm_num; omega) (p 1)).symm
  rw [int_or, bits32_natCast (p 0) (by omega), bits32_shl_byte _ 8 h1 (by decide), e]
  unfold int32
  push_cast
  omega

theorem to_u8_lt (x : Int) : to_u8 x < 256 := by
  unfold to_u8
  omega

/-- The four stores of `INT_TO_DW`, read back one offset at a time. -/
theorem INT_TO_DW_bytes (i : Int) (p : Nat → Nat) :
    INT_TO_DW i p 0 = to_u8 i ∧ INT_TO_DW i p 1 = to_u8 (int_shr i 8) ∧
    INT_TO_DW i p 2 = to_u8 (int_shr i 16) ∧ INT_TO_DW i p 3 = to_u8 (int_shr i 24) ∧
    ∀ k, 4 ≤ k → INT_TO_DW i p k = p k := by
  refine ⟨by simp [INT_TO_DW, Function.update], by simp [INT_TO_DW, Function.update],
    by simp [INT_TO_DW, Function.update], by simp [INT_TO_DW, Function.update], ?_⟩
  intro k hk
  have h0 : k ≠ 0 := by omega
  have h1 : k ≠ 1 := by omega
  have h2 : k ≠ 2 := by omega
  have h3 : k ≠ 3 := by omega
  simp [INT_TO_DW, Function.update, h0, h1, h2, h3]

/-- The two stores of `SHORT_TO_SW`, read back. -/
theorem SHORT_TO_SW_bytes (s : Int) (p : Nat → Nat) :
    SHORT_TO_SW s p 0 = to_u8 s ∧ SHORT_TO_SW s p 1 = to_u8 (int_shr s 8) := by
  constructor <;> simp [SHORT_TO_SW, Function.update]

/-- What `SW_TO_SHORT` evaluates to after `SHORT_TO_SW`: the unsigned 16-bit reading of
`s`, which is `s` for `s ≥ 0` and `s + 65536` for `s < 0`; converting that `int` to
`int16_t` gives `s` back. -/
theorem SW_TO_SHORT_SHORT_TO_SW (s : Int) (p : Nat → Nat)
    (hs : -2 ^ 15 ≤ s ∧ s < 2 ^ 15) :
    SW_TO_SHORT (SHORT_TO_SW s p) = s % 2 ^ 16 ∧
    int16 (SW_TO_SHORT (SHORT_TO_SW s p)) = s := by
  obtain ⟨e0, e1⟩ := SHORT_TO_SW_bytes s p
  have hv : SW_TO_SHORT (SHORT_TO_SW s p) = s % 2 ^ 16 := by
    rw [SW_TO_SHORT_bytes _ (by rw [e0]; exact to_u8_lt _) (by rw [e1]; exact to_u8_lt _),
      e0, e1]
    unfold to_u8 int_shr
    rw [Int.shiftRight_eq_div_pow]
    norm_num at hs ⊢
    omega
  refine ⟨hv, ?_⟩
  rw [hv]
  unfold int16
  norm_num at hs ⊢
  omega

/-! ## Byte-order helpers: the claims -/

/-- Claim C1: for every four bytes `p[0..3]`, `DW_TO_INT(p)` is the little-endian integer
`p[0] + 2^8 p[1] + 2^16 p[2] + 2^24 p[3]` taken as a 32-bit twos-complement `int32`: it is
the wrap of that sum, it lies in `[-2^31, 2^31)`, and it differs from the sum by a
multiple of `2^32`. -/
theorem DW_TO_INT_little_endian (p : Nat → Nat) (h : ∀ k, k < 4 → p k < 256) :
    DW_TO_INT p
      = int32 ((p 0 : Int) + 2 ^ 8 * (p 1 : Int) + 2 ^ 16 * (p 2 : Int) + 2 ^ 24 * (p 3 : Int)) ∧
    -2 ^ 31 ≤ DW_TO_INT p ∧ DW_TO_INT p < 2 ^ 31 ∧
    (DW_TO_INT p
      - ((p 0 : Int) + 2 ^ 8 * (p 1 : Int) + 2 ^ 16 * (p 2 : Int) + 2 ^ 24 * (p 3 : Int)))
        % 2 ^ 32 = 0 := by
  have e := DW_TO_INT_bytes p h
  refine ⟨e, ?_, ?_, ?_⟩ <;>
  · rw [e]
    unfold int32
    norm_num
    omega

/-- The bytes `78 56 34 92` decode to -1842063752, the `int32` reading of 0x92345678. -/
theorem DW_TO_INT_little_endian_witness :
    (∀ k, k < 4 → demo_dword k < 256) ∧ DW_TO_INT demo_dword = -1842063752 := by
  have hb : ∀ k, k < 4 → demo_dword k < 256 := by decide
  have h := (DW_TO_INT_little_endian demo_dword hb).1
  refine ⟨hb, ?_⟩
  rw [h]
  decide

/-- Claim C2: for every 32-bit integer `i` and every buffer `p`, `INT_TO_DW(i, p)` followed
by `DW_TO_INT(p)` gives `i` back, and `INT_TO_DW` stores `(i >> 8k)` truncated to 8 bits,
that is `floor(i / 2^(8k)) mod 256`, as byte `k` of `p` for `k = 0, 1, 2, 3`. -/
theorem INT_TO_DW_round_trip (i : Int) (p : Nat → Nat) (hi : -2 ^ 31 ≤ i ∧ i < 2 ^ 31) :
    DW_TO_INT (INT_TO_DW i p) = i ∧
    (∀ k, k < 4 → INT_TO_DW i p k = to_u8 (int_shr i (8 * k))) ∧
    (∀ k, k < 4 → (INT_TO_DW i p k : Int) = i / 2 ^ (8 * k) % 256) := by
  obtain ⟨e0, e1, e2, e3, -⟩ := INT_TO_DW_bytes i p
  have hstore : ∀ k, k < 4 → INT_TO_DW i p k = to_u8 (int_shr i (8 * k)) := by
    intro k hk
    have hcases : k = 0 ∨ k = 1 ∨ k = 2 ∨ k = 3 := by omega
    rcases hcases with rfl | rfl | rfl | rfl
    · rw [e0]; unfold int_shr; rw [Int.shiftRight_eq_div_pow]; simp
    · exact e1
    · exact e2
    · exact e3
  refine ⟨?_, hstore, ?_⟩
  · have hlt : ∀ k, k < 4 → INT_TO_DW i p k < 256 := by
      intro k hk
      rw [hstore k hk]
      exact to_u8_lt _
    rw [DW_TO_INT_bytes _ hlt, e0, e1, e2, e3]
    unfold to_u8 int_shr int32
    rw [Int.shiftRight_eq_div_pow, Int.shiftRight_eq_div_pow, Int.shiftRight_eq_div_pow]
    norm_num at hi ⊢
    omega
  · intro k hk
    rw [hstore k hk]
    unfold to_u8 int_shr
    rw [Int.shiftRight_eq_div_pow]
    push_cast
    omega

/-- Writing -1842063752 into a buffer and reading it back. -/
theorem INT_TO_DW_round_trip_witness :
    (-2 ^ 31 ≤ (-1842063752 : Int) ∧ (-1842063752 : Int) < 2 ^ 31) ∧
    DW_TO_INT (INT_TO_DW (-1842063752) zero_buf) = -1842063752 :=
  ⟨by decide, (INT_TO_DW_round_trip (-1842063752) zero_buf (by decide)).1⟩

/-- Claim C3, evaluated on the code: for the `int16` value `s = -1`, `SHORT_TO_SW(s, p)`
stores the bytes `FF FF` and `SW_TO_SHORT(p)` then evaluates to 65535, which is not the
`int16` value -1 that was written. -/
theorem SW_TO_SHORT_of_minus_one (p : Nat → Nat) :
    SHORT_TO_SW (-1) p 0 = 0xFF ∧ SHORT_TO_SW (-1) p 1 = 0xFF ∧
    SW_TO_SHORT (SHORT_TO_SW (-1) p) = 65535 ∧
    SW_TO_SHORT (SHORT_TO_SW (-1) p) ≠ -1 := by
  have hv := (SW_TO_SHORT_SHORT_TO_SW (-1) p (by decide)).1
  obtain ⟨e0, e1⟩ := SHORT_TO_SW_bytes (-1) p
  refine ⟨?_, ?_, ?_, ?_⟩
  · rw [e0]; decide
  · rw [e1]; decide
  · rw [hv]; decide
  · rw [hv]; decide

/-! ## Payload header flags -/

set_option maxRecDepth 100000 in
/-- Or-ing the flags found in a byte gives the byte back. -/
theorem or_all_flags_of : ∀ b, b < 256 → or_all (flags_of b) = b := by decide

set_option maxRecDepth 100000 in
/-- A selection of flags is recovered from its bitwise or. -/
theorem flags_of_or_all : ∀ l ∈ uvc_stream_flags.sublists, flags_of (or_all l) = l := by
  decide

/-- Claim C4: the eight payload header flags are FID=0x01, EOF=0x02, PTS=0x04, SCR=0x08,
RES=0x10, STI=0x20, ERR=0x40, EOH=0x80; flag number `k` is the single bit `2^k`, the
bitwise and of any two distinct flags is 0, their bitwise or is 0xFF, and every byte is the
bitwise or of exactly one selection of the flags. -/
theorem uvc_stream_flags_decompose :
    (UVC_STREAM_FID = 0x01 ∧ UVC_STREAM_EOF = 0x02 ∧ UVC_STREAM_PTS = 0x04 ∧
      UVC_STREAM_SCR = 0x08 ∧ UVC_STREAM_RES = 0x10 ∧ UVC_STREAM_STI = 0x20 ∧
      UVC_STREAM_ERR = 0x40 ∧ UVC_STREAM_EOH = 0x80) ∧
    uvc_stream_flags = (List.range 8).map (fun k => 2 ^ k) ∧
    List.Pairwise (fun a b => a &&& b = 0 ∧ b &&& a = 0) uvc_stream_flags ∧
    or_all uvc_stream_flags = 0xFF ∧
    ∀ b, b < 256 → ∃! l, l.Sublist uvc_stream_flags ∧ or_all l = b := by
  refine ⟨by decide, by decide, by decide, by decide, ?_⟩
  intro b hb
  refine ⟨flags_of b, ⟨List.filter_sublist _, or_all_flags_of b hb⟩, ?_⟩
  rintro l ⟨hl, rfl⟩
  exact (flags_of_or_all l (List.mem_sublists.mpr hl)).symm

/-- The byte 0x8C is the or of exactly one selection of flags. -/
theorem uvc_stream_flags_decompose_witness :
    (0x8C : Nat) < 256 ∧ ∃! l, l.Sublist uvc_stream_flags ∧ or_all l = 0x8C :=
  ⟨by decide, uvc_stream_flags_decompose.2.2.2.2 0x8C (by decide)⟩

/-! ## `DL_NTH` -/

/-- Walking `next` from node `k` with the counter at `i ≤ n` ends on node `k + (n - i)`,
or on `NULL` when the list has no such node. -/
theorem DL_NTH_next_walk (next : Nat → Option Nat) (es : List Nat)
    (hnext : ∀ k (h : k < es.length), next es[k] = es[k + 1]?) (n : Int) :
    ∀ (m k : Nat) (i : Int), n - i = m →
      DL_NTH_next next n es[k]? i = es[k + m]? := by
  intro m
  induction m with
  | zero =>
    intro k i hi
    rw [Nat.add_zero]
    generalize es[k]? = p
    cases p with
    | none => rw [DL_NTH_next]
    | some a => rw [DL_NTH_next, if_neg (by omega)]
  | succ m ih =>
    intro k i hi
    cases hk : es[k]? with
    | none =>
      rw [DL_NTH_next]
      have : es.length ≤ k := by
        by_contra hlt
        rw [List.getElem?_eq_getElem (by omega)] at hk
        exact Option.noConfusion hk
      exact (List.getElem?_eq_none (by omega)).symm
    | some a =>
      have hlt : k < es.length := by
        by_contra hge
        rw [List.getElem?_eq_none (by omega)] at hk
        exact Option.noConfusion hk
      have ha : es[k] = a := by
        rw [List.getElem?_eq_getElem hlt] at hk
        exact Option.some.inj hk
      rw [DL_NTH_next, if_pos (by omega), ← ha, hnext k hlt, ih (k + 1) (i + 1) (by omega)]
      congr 1
      omega

/-- The result of `DL_NTH` for `n ≥ 0`, as a lookup in the list of nodes. -/
theorem DL_NTH_lookup (prev next : Nat → Option Nat) (head : Option Nat) (es : List Nat)
    (hform : DLForm prev next head es) (n : Int) (hn : 0 ≤ n) :
    DL_NTH prev next head n = es[n.toNat]? := by
  obtain ⟨hhead, hnext, -⟩ := hform
  unfold DL_NTH
  rw [if_neg (by omega), hhead]
  have h0 : es.head? = es[0]? := by cases es <;> simp
  rw [h0, DL_NTH_next_walk next es hnext n n.toNat 0 0 (by omega)]
  simp

/-- Claim C5: for a list in utlist doubly linked form with nodes `e_0 .. e_{L-1}` and every
`n ≥ 0`, `DL_NTH(head, out, n)` sets `out` to `e_n` when `n < L` and to `NULL` when
`n ≥ L`; in particular `out` is `NULL` for the empty list. -/
theorem DL_NTH_nonneg (prev next : Nat → Option Nat) (head : Option Nat) (es : List Nat)
    (hform : DLForm prev next head es) (n : Int) (hn : 0 ≤ n) :
    (∀ h : n.toNat < es.length, DL_NTH prev next head n = some es[n.toNat]) ∧
    (es.length ≤ n.toNat → DL_NTH prev next head n = none) ∧
    (es = [] → head = none ∧ DL_NTH prev next head n = none) := by
  have e := DL_NTH_lookup prev next head es hform n hn
  refine ⟨?_, ?_, ?_⟩
  · intro h
    rw [e, List.getElem?_eq_getElem h]
  · intro h
    rw [e, List.getElem?_eq_none h]
  · intro h
    subst h
    exact ⟨hform.1, by rw [e]; rfl⟩

/-- Selecting items 0, 2 and 3 of the three-node list at the addresses 10, 20, 30. -/
theorem DL_NTH_nonneg_witness :
    DLForm demo_prev demo_next (some 10) [10, 20, 30] ∧
    DL_NTH demo_prev demo_next (some 10) 0 = some 10 ∧
    DL_NTH demo_prev demo_next (some 10) 2 = some 30 ∧
    DL_NTH demo_prev demo_next (some 10) 3 = none :=
  ⟨by decide,
   (DL_NTH_nonneg demo_prev demo_next (some 10) [10, 20, 30] (by decide) 0 (by decide)).1
     (by decide),
   (DL_NTH_nonneg demo_prev demo_next (some 10) [10, 20, 30] (by decide) 2 (by decide)).1
     (by decide),
   (DL_NTH_nonneg demo_prev demo_next (some 10) [10, 20, 30] (by decide) 3 (by decide)).2.1
     (by decide)⟩

/-- Claim C6: for a non-empty list in utlist doubly linked form, `DL_NTH(head, out, -1)`
sets `out` to the last item of the list. -/
theorem DL_NTH_minus_one (prev next : Nat → Option Nat) (head : Option Nat) (es : List Nat)
    (hform : DLForm prev next head es) (hne : es ≠ []) :
    DL_NTH prev next head (-1) = some (es.getLast hne) := by
  obtain ⟨hhead, -, hprev⟩ := hform
  cases es with
  | nil => exact absurd rfl hne
  | cons e es =>
    have h := hprev 0 (by simp)
    simp only [List.getElem_cons_zero, if_true] at h
    unfold DL_NTH
    rw [if_pos (by decide), hhead]
    simp only [List.head?_cons]
    rw [DL_NTH_prev, if_pos (by decide), h, List.getLast?_eq_getLast _ hne]
    rw [DL_NTH_prev, if_neg (by decide)]

/-- Selecting the last item of the three-node list at the addresses 10, 20, 30. -/
theorem DL_NTH_minus_one_witness :
    DLForm demo_prev demo_next (some 10) [10, 20, 30] ∧
    DL_NTH demo_prev demo_next (some 10) (-1) = some 30 :=
  ⟨by decide,
   DL_NTH_minus_one demo_prev demo_next (some 10) [10, 20, 30] (by decide) (by decide)⟩

/-! ## The example program -/

/-- With the default command line the loop of lines 134 to 138 is not entered, and `main`
negotiates the profile of `format_desc->frame_descs->next`. -/
theorem main_negotiate_default (mem : Nat → uvc_frame_desc) (format_desc : uvc_format_desc)
    (h : Nat) (hh : format_desc.frame_descs = some h) :
    main_negotiate mem format_desc default_format_idx
      = main_profile mem format_desc (mem h).next := by
  unfold main_negotiate main_frame_desc default_format_idx
  rw [hh]
  simp

/-- Claim C7, evaluated on the code: with the default command line and a first format
whose frame list holds the single descriptor 1280x720 at interval 666666, `main` passes
640, 480 and 30, not the 1280, 720 and 15 of that first frame descriptor; when a second
descriptor 320x240 at interval 333333 follows, `main` passes 320, 240 and 30, the values
of the second descriptor. -/
theorem main_negotiate_skips_first_frame :
    DLForm (fun a => (one_frame_mem a).prev) (fun a => (one_frame_mem a).next)
      demo_format.frame_descs [1] ∧
    main_negotiate one_frame_mem demo_format default_format_idx
      = .ok ⟨.UVC_COLOR_FORMAT_MJPEG, 640, 480, 30⟩ ∧
    main_profile one_frame_mem demo_format demo_format.frame_descs
      = .ok ⟨.UVC_COLOR_FORMAT_MJPEG, 1280, 720, 15⟩ ∧
    DLForm (fun a => (two_frame_mem a).prev) (fun a => (two_frame_mem a).next)
      demo_format.frame_descs [1, 2] ∧
    main_negotiate two_frame_mem demo_format default_format_idx
      = .ok ⟨.UVC_COLOR_FORMAT_MJPEG, 320, 240, 30⟩ ∧
    main_profile two_frame_mem demo_format demo_format.frame_descs
      = .ok ⟨.UVC_COLOR_FORMAT_MJPEG, 1280, 720, 15⟩ := by
  refine ⟨by decide, ?_, rfl, by decide, ?_, rfl⟩
  · rw [main_negotiate_default one_frame_mem demo_format 1 rfl]
    rfl
  · rw [main_negotiate_default two_frame_mem demo_format 1 rfl]
    rfl

/-- Claim C8: for a selected frame descriptor with positive `dwDefaultFrameInterval` `d`,
`main` reaches the call with the width and height of the descriptor and with
`fps = floor(10000000 / d)`, without dividing by zero; for `d = 333333` the result is 30;
and when no frame descriptor is selected, width, height and fps are 640, 480 and 30. -/
theorem main_profile_fps (mem : Nat → uvc_frame_desc) (format_desc : uvc_format_desc)
    (a : Nat) (hd : 0 < (mem a).dwDefaultFrameInterval) :
    (∃ r, main_profile mem format_desc (some a) = .ok r ∧
      r.width = (mem a).wWidth ∧ r.height = (mem a).wHeight ∧
      r.fps = ((10000000 / (mem a).dwDefaultFrameInterval : Nat) : Int) ∧
      r.fps * (mem a).dwDefaultFrameInterval ≤ 10000000 ∧
      10000000 < (r.fps + 1) * (mem a).dwDefaultFrameInterval ∧
      ((mem a).dwDefaultFrameInterval = 333333 → r.fps = 30)) ∧
    (∃ r, main_profile mem format_desc none = .ok r ∧
      r.width = 640 ∧ r.height = 480 ∧ r.fps = 30) := by
  have hfps : int32 ((10000000 / (mem a).dwDefaultFrameInterval : Nat) : Int)
      = ((10000000 / (mem a).dwDefaultFrameInterval : Nat) : Int) := by
    have hq : (10000000 / (mem a).dwDefaultFrameInterval : Nat) ≤ 10000000 :=
      Nat.div_le_self _ _
    generalize (10000000 / (mem a).dwDefaultFrameInterval : Nat) = q at hq
    unfold int32
    omega
  have hlo : (10000000 / (mem a).dwDefaultFrameInterval) * (mem a).dwDefaultFrameInterval
      ≤ 10000000 := Nat.div_mul_le_self _ _
  have hhi : 10000000
      < (10000000 / (mem a).dwDefaultFrameInterval + 1) * (mem a).dwDefaultFrameInterval := by
    rw [Nat.mul_comm]
    exact Nat.lt_mul_div_succ 10000000 hd
  refine ⟨⟨⟨main_frame_format format_desc, ((mem a).wWidth : Int), ((mem a).wHeight : Int),
      int32 ((10000000 / (mem a).dwDefaultFrameInterval : Nat) : Int)⟩,
      ?_, rfl, rfl, hfps, ?_, ?_, ?_⟩,
    ⟨⟨main_frame_format format_desc, 640, 480, 30⟩, rfl, rfl, rfl, rfl⟩⟩
  · unfold main_profile
    simp only [if_neg (Nat.pos_iff_ne_zero.mp hd)]
  · show int32 ((10000000 / (mem a).dwDefaultFrameInterval : Nat) : Int)
      * ((mem a).dwDefaultFrameInterval : Int) ≤ 10000000
    rw [hfps]
    exact_mod_cast hlo
  · show (10000000 : Int) < (int32 ((10000000 / (mem a).dwDefaultFrameInterval : Nat) : Int) + 1)
      * ((mem a).dwDefaultFrameInterval : Int)
    rw [hfps]
    exact_mod_cast hhi
  · intro h
    rw [hfps, h]
    norm_num

/-- The profile of the descriptor 320x240 at interval 333333 is 320, 240 and 30 fps. -/
theorem main_profile_fps_witness :
    0 < (two_frame_mem 2).dwDefaultFrameInterval ∧
    ∃ r, main_profile two_frame_mem demo_format (some 2) = .ok r ∧
      r.width = 320 ∧ r.height = 240 ∧ r.fps = 30 := by
  obtain ⟨⟨r, hr, hw, hh, -, -, -, hf⟩, -⟩ :=
    main_profile_fps two_frame_mem demo_format 2 (by decide)
  exact ⟨by decide, r, hr, hw, hh, hf rfl⟩

end Libuvc
